import Mathlib

/-!
Verification development for the vizAi NL2SQL service.

Strings from the Python source are modelled as `List Char` (`Str`); Python
functions are shallowly embedded as Lean functions over that type.  The LLM
round-trip (`ChatGoogleGenerativeAI` invocation) is modelled as an explicit
oracle parameter returning `Except` (raised exception vs. returned content).
-/

namespace VizAi

/-- Strings of the Python source, modelled as lists of characters. -/
abbrev Str := List Char

/-- The single-quote character (ASCII 39), written numerically. -/
def sq : Char := Char.ofNat 39

/-- Whitespace recognized by Python `str.strip()` (ASCII portion):
space, tab, newline, carriage return, vertical tab, form feed. -/
def pyIsSpace (c : Char) : Bool :=
  c = ' ' || c = '\t' || c = '\n' || c = '\r' || c = '\x0b' || c = '\x0c'

/-- Left part of Python `str.strip()`: drop leading whitespace. -/
def lstrip (s : Str) : Str := s.dropWhile pyIsSpace

/-- Right part of Python `str.strip()`: drop trailing whitespace. -/
def rstrip : Str → Str
  | [] => []
  | c :: t =>
    match rstrip t with
    | [] => if pyIsSpace c then [] else [c]
    | d :: r => c :: d :: r

/-- Python `str.strip()`: drop whitespace from both ends. -/
def pyStrip (s : Str) : Str := rstrip (lstrip s)

/-- first occurrence splitter: `splitFirst pat s = some (pre, post)` when
`pat` occurs in `s`, with `pre` the text before the first occurrence and
`post` the text after it; `none` when `pat` does not occur.  This is the
semantics of Python `re.search` for a fixed literal pattern. -/
def splitFirst (pat : Str) : Str → Option (Str × Str)
  | [] => if pat.isPrefixOf ([] : Str) then some ([], []) else none
  | c :: rest =>
    if pat.isPrefixOf (c :: rest) then some ([], (c :: rest).drop pat.length)
    else
      match splitFirst pat rest with
      | some (pre, post) => some (c :: pre, post)
      | none => none

/-- Boolean substring test: does `pat` occur inside `s`? -/
def containsSub (pat : Str) : Str → Bool
  | [] => pat.isEmpty
  | c :: rest => pat.isPrefixOf (c :: rest) || containsSub pat rest

/-- The markdown fence delimiter, three backticks. -/
def fence : Str := "```".toList

/-- The SQL-tagged fence opener used by the source regexes. -/
def sqlTag : Str := "```sql".toList

/-- The text-tagged fence opener used by `extract_sql_and_explanation`. -/
def textTag : Str := "```text".toList

/-- Model of the Python regex search
Lean translation of the search used throughout the source, e.g.
`re.search(r'```sql\s*(.*?)\s*```', response, re.DOTALL)` followed by
`.group(1).strip()`.  With `re.DOTALL`, a match exists iff the first
occurrence of the opening tag is followed (at or after its end) by a later
occurrence of three backticks; the lazy group together with the two
surrounding greedy whitespace runs, once `.strip()` is applied, yields
exactly the stripped text strictly between the end of the first opening tag
and the start of the first subsequent fence.  (Opening tags of the form
three backticks plus an alphabetic word cannot overlap themselves within
their own length, so a later opening tag cannot produce a match when the
first one has no closing fence: the later tag would itself supply a closing
fence for the first.)  Hence: find the first `tag`, then the first `fence`
after it, and return the stripped interior. -/
def searchBlock (tag : Str) (s : Str) : Option Str :=
  match splitFirst tag s with
  | none => none
  | some (_, post) =>
    match splitFirst fence post with
    | none => none
    | some (inner, _) => some (pyStrip inner)

/-- Embedding of `extract_sql_from_response` (identical in
`app/services/NL2SQL.py`, `app/services/time_based.py` and
`app/services/query_generator.py`): try a ```sql block, then any fenced
block, then fall back to the stripped raw text. -/
def extract_sql_from_response (response : Str) : Str :=
  match searchBlock sqlTag response with
  | some r => r
  | none =>
    match searchBlock fence response with
    | some r => r
    | none => pyStrip response

/-- Embedding of `extract_sql_and_explanation` (`app/services/time_based.py`):
independent searches for a ```sql block and a ```text block, each with a
fixed fallback sentinel string. -/
def extract_sql_and_explanation (response : Str) : Str × Str :=
  ((searchBlock sqlTag response).getD "No valid SQL found.".toList,
   (searchBlock textTag response).getD "No explanation provided.".toList)

/-! ## Time-based classifier (`QueryGenerator.is_time_based_query`)

The source scans the query with `re.search(pattern, query, re.IGNORECASE)`
for 18 fixed patterns.  The patterns use only: literal characters,
`\s*`, `.*`, `\d` repetitions and escaped brackets.  We embed this regex
fragment as a small atom language and decide matching with Brzozowski-style
derivatives over a disjunction of atom sequences (equivalent to the
backtracking search for the boolean result, and structurally recursive so
the kernel can evaluate it).  `re.IGNORECASE` is modelled by comparing
`Char.toLower` images (ASCII case folding); `\d` and `\s` are modelled on
their ASCII ranges, which is all the claims exercise. -/

/-- One atom of the regex fragment used by `time_patterns`. -/
inductive RAtom : Type
  | lit (c : Char)
  | wsStar
  | dotStar
  | digit
  deriving DecidableEq

/-- Does the atom sequence accept the empty string? -/
def nullableSeq : List RAtom → Bool
  | [] => true
  | .lit _ :: _ => false
  | .digit :: _ => false
  | .wsStar :: as => nullableSeq as
  | .dotStar :: as => nullableSeq as

/-- Brzozowski derivative of one atom sequence by a character: the list of
residual sequences (a disjunction). -/
def derivSeq (c : Char) : List RAtom → List (List RAtom)
  | [] => []
  | .lit d :: as => if c.toLower = d.toLower then [as] else []
  | .digit :: as => if c.isDigit then [as] else []
  | .wsStar :: as => (if pyIsSpace c then [.wsStar :: as] else []) ++ derivSeq c as
  | .dotStar :: as => (if c ≠ '\n' then [.dotStar :: as] else []) ++ derivSeq c as

/-- Does some alternative in the state accept the empty string? -/
def nullState (st : List (List RAtom)) : Bool := st.any nullableSeq

/-- Derivative of a whole disjunctive state. -/
def derivState (c : Char) (st : List (List RAtom)) : List (List RAtom) :=
  st.flatMap (derivSeq c)

/-- Does the pattern match some prefix of `s` (starting at its head)? -/
def matchesPfx (st : List (List RAtom)) : Str → Bool
  | [] => nullState st
  | c :: rest => nullState st || matchesPfx (derivState c st) rest

/-- Model of `re.search`: does the pattern match starting at any position? -/
def reSearch (p : List RAtom) : Str → Bool
  | [] => matchesPfx [p] []
  | c :: rest => matchesPfx [p] (c :: rest) || reSearch p rest

/-- Lift a plain string to a sequence of case-insensitive literal atoms. -/
def lits (s : String) : List RAtom := s.toList.map RAtom.lit

/-- One `\d{2}` or `\d{4}` style run of digit atoms. -/
def digits (n : Nat) : List RAtom := List.replicate n RAtom.digit

/-- The `\d{4}-\d{2}-\d{2}` date-literal suffix shared by two patterns. -/
def dateLits : List RAtom := digits 4 ++ lits "-" ++ digits 2 ++ lits "-" ++ digits 2

/-- Transcription of the `time_patterns` list of
`QueryGenerator.is_time_based_query`, one atom sequence per raw pattern. -/
def time_patterns : List (List RAtom) :=
  [ lits "DATE_FORMAT",
    lits "YEAR" ++ [.wsStar] ++ lits "(",
    lits "MONTH" ++ [.wsStar] ++ lits "(",
    lits "DAY" ++ [.wsStar] ++ lits "(",
    lits "QUARTER" ++ [.wsStar] ++ lits "(",
    lits "WEEK" ++ [.wsStar] ++ lits "(",
    lits "DATE_SUB",
    lits "DATE_ADD",
    lits "DATE_DIFF",
    lits "BETWEEN" ++ [.dotStar] ++ lits "AND",
    lits ">" ++ [.wsStar] ++ dateLits,
    lits "<" ++ [.wsStar] ++ dateLits,
    lits "GROUP BY" ++ [.dotStar] ++ lits "year",
    lits "GROUP BY" ++ [.dotStar] ++ lits "month",
    lits "GROUP BY" ++ [.dotStar] ++ lits "quarter",
    lits "GROUP BY" ++ [.dotStar] ++ lits "date",
    lits "[MIN_DATE]",
    lits "[MAX_DATE]" ]

/-- Embedding of `QueryGenerator.is_time_based_query`: true iff any of the
18 patterns matches somewhere in the query (case-insensitively). -/
def is_time_based_query (query : Str) : Bool :=
  time_patterns.any (fun p => reSearch p query)

/-! ## Placeholder refinement (`QueryGenerator.refine_time_based_query`) -/

/-- Fuelled core of Python `str.replace(pat, rep)`: scan left to right,
replacing non-overlapping occurrences.  At each step at least one input
character is consumed, so fuel `s.length` is exhausted only when the
remaining input is empty; the fuel-0 branch is therefore unreachable in
`pyReplace` and only makes the recursion structural. -/
def pyReplaceF (pat rep : Str) : Nat → Str → Str
  | 0, s => s
  | _ + 1, [] => []
  | n + 1, c :: rest =>
    if pat ≠ [] ∧ pat.isPrefixOf (c :: rest) then
      rep ++ pyReplaceF pat rep n ((c :: rest).drop pat.length)
    else
      c :: pyReplaceF pat rep n rest

/-- Python `s.replace(pat, rep)` for the non-empty patterns the source uses
(the empty pattern never occurs in the source and is modelled as identity). -/
def pyReplace (s pat rep : Str) : Str := pyReplaceF pat rep s.length s

/-- The `[MIN_DATE]` placeholder token. -/
def minTok : Str := "[MIN_DATE]".toList

/-- The `[MAX_DATE]` placeholder token. -/
def maxTok : Str := "[MAX_DATE]".toList

/-- Embedding of `QueryGenerator.refine_time_based_query`: return the query
unchanged unless it is classified time-based and both bounds are non-empty
(Python truthiness of the bound strings); otherwise substitute the two
placeholder tokens and then collapse each doubled single quote into one
(`query.replace(chr(39)*2, chr(39))` in the source). -/
def refine_time_based_query (query min_date max_date : Str) : Str :=
  if is_time_based_query query = false then query
  else if min_date = [] ∨ max_date = [] then query
  else
    pyReplace (pyReplace (pyReplace query minTok min_date) maxTok max_date)
      [sq, sq] [sq]

/-! ## Query items and validation (`app/models/sql_models.py`) -/

/-- Embedding of the `SQLQueryItem` pydantic model's fields.  `relevance` is
a Python float modelled as an exact rational. -/
structure SQLQueryItem : Type where
  question : Str
  query : Str
  relevance : ℚ
  is_time_based : Bool
  chart_type : Str
  deriving DecidableEq

/-- The `valid_chart_types` list of the `chart_type` field validator. -/
def valid_chart_types : List Str :=
  ["Bar", "Line", "Area", "Pie", "Donut", "Radian", "Scatterplot"].map
    String.toList

/-- Round half to even, the tie rule of Python `round`. -/
def roundHalfEven (x : ℚ) : ℤ :=
  if x - ⌊x⌋ < 1 / 2 then ⌊x⌋
  else if 1 / 2 < x - ⌊x⌋ then ⌊x⌋ + 1
  else if ⌊x⌋ % 2 = 0 then ⌊x⌋ else ⌊x⌋ + 1

/-- Python `round(v, 2)`, modelled on exact rationals (CPython rounds the
nearest binary double; on exactly representable values the two agree). -/
def pyRound2 (v : ℚ) : ℚ := (roundHalfEven (v * 100) : ℚ) / 100

/-- The message of the `relevance` field validator. -/
def relevance_error_msg : Str := "Relevance must be between 0.0 and 1.0".toList

/-- The message of the `chart_type` field validator. -/
def chart_type_error_msg : Str := "Chart type must be one of the valid chart types".toList

/-- Embedding of pydantic construction of `SQLQueryItem`: the field
constraints (`ge=0.0, le=1.0`) together with the `relevance` validator
reject values outside `[0, 1]` and round accepted values to two decimals;
the `chart_type` validator rejects values outside `valid_chart_types`.
An `Except.error` models a raised `ValidationError`. -/
def SQLQueryItem.validate (question query : Str) (relevance : ℚ)
    (is_tb : Bool) (chart : Str) : Except Str SQLQueryItem :=
  if ¬ (0 ≤ relevance ∧ relevance ≤ 1) then Except.error relevance_error_msg
  else if chart ∉ valid_chart_types then Except.error chart_type_error_msg
  else Except.ok
    { question := question, query := query, relevance := pyRound2 relevance,
      is_time_based := is_tb, chart_type := chart }

/-! ## Draft generation (`QueryGenerator.generate_queries`)

The whole `try` block is modelled monadically in `Except`: the draft chain
invocation (LLM call + structured parse + item validation) is the `draft`
parameter, and the refinement loop re-validates each rebuilt item exactly as
the pydantic constructor call in the source does. -/

/-- One iteration of the refinement loop of `generate_queries`: a time-based
item with both bounds present is rebuilt (re-validated) from the refined
query and refined question; every other item is appended unchanged. -/
def refine_item (mn mx : Str) (item : SQLQueryItem) : Except Str SQLQueryItem :=
  if item.is_time_based = true ∧ mn ≠ [] ∧ mx ≠ [] then
    SQLQueryItem.validate (refine_time_based_query item.question mn mx)
      (refine_time_based_query item.query mn mx)
      item.relevance true item.chart_type
  else Except.ok item

/-- The refinement loop over the drafted items. -/
def refine_loop (mn mx : Str) : List SQLQueryItem → Except Str (List SQLQueryItem)
  | [] => Except.ok []
  | item :: rest => do
    let r ← refine_item mn mx item
    let rs ← refine_loop mn mx rest
    pure (r :: rs)

/-- Body of `generate_queries` after the draft: `min_date`/`max_date` are
set only when `min_max_dates` has exactly two elements (otherwise they stay
`None` and every item passes through unchanged). -/
def refine_all (min_max_dates : List Str) (items : List SQLQueryItem) :
    Except Str (List SQLQueryItem) :=
  match min_max_dates with
  | [mn, mx] => refine_loop mn mx items
  | _ => Except.ok items

/-- The degraded sentinel item built in the `except` branch of
`generate_queries`. -/
def error_item (e : Str) : SQLQueryItem :=
  { question := "Error generating queries".toList,
    query := "-- Error: ".toList ++ e,
    relevance := 0, is_time_based := false, chart_type := "Line".toList }

/-- Embedding of `QueryGenerator.generate_queries`: any exception raised in
the `try` block (draft generation, parsing, validation, refinement) is
caught and converted into the single-item degraded batch. -/
def generate_queries (draft : Except Str (List SQLQueryItem))
    (min_max_dates : List Str) : List SQLQueryItem :=
  match draft.bind (refine_all min_max_dates) with
  | Except.ok items => items
  | Except.error e => [error_item e]

/-! ## Batch date-range refiner (`app/services/time_based.py`) -/

/-- Modelled from the spec: the per-query element of `DateRangeRequest`
(§3, "queries: sequence of (query_id: string, query_text: string, optional
explanation)").  The pydantic class itself is absent from the tree (only
imported); per §2 these are boundary-validated pydantic data shapes, so an
instance supports attribute access (`query_item.query_id`) but is not
subscriptable (`query_item["query_id"]` raises `TypeError`). -/
structure TimeBasedQueryItem : Type where
  query_id : Str
  query : Str
  explanation : Str
  deriving DecidableEq

/-- Modelled from the spec: `DateRangeRequest` (§3) — the
`TimeBasedQueriesUpdateRequest` pydantic model imported by
`app/services/time_based.py` but absent from the tree. -/
structure TimeBasedQueriesUpdateRequest : Type where
  queries : List TimeBasedQueryItem
  min_date : Str
  max_date : Str
  db_type : Str
  deriving DecidableEq

/-- One per-item result dict appended to `updated_queries`; the
explanation keys are present only in the success branch, hence `Option`. -/
structure DateUpdateResult : Type where
  query_id : Str
  original_query : Str
  original_explanation : Option Str
  updated_query : Str
  updated_explanation : Option Str
  success : Bool
  error : Option Str
  deriving DecidableEq

/-- The `str(e)` text of the `TypeError` raised by subscripting a pydantic
model instance in the `except` branch of `update_time_based_queries`. -/
def pydantic_subscript_error : Str :=
  [sq] ++ "TimeBasedQueryItem".toList ++ [sq]
    ++ " object is not subscriptable".toList

/-- The `str(e)` text of the `TypeError` raised by subscripting the
un-awaited coroutine in `update_query_date_range`. -/
def coroutine_subscript_error : Str :=
  [sq] ++ "coroutine".toList ++ [sq] ++ " object is not subscriptable".toList

/-- The success-branch dict of the loop of `update_time_based_queries`. -/
def successEntry (item : TimeBasedQueryItem) (content : Str) : DateUpdateResult :=
  { query_id := item.query_id, original_query := item.query,
    original_explanation := some item.explanation,
    updated_query := (extract_sql_and_explanation content).1,
    updated_explanation := some (extract_sql_and_explanation content).2,
    success := true, error := none }

/-- The per-item loop of `update_time_based_queries`.  `oracle` models the
`update_chain.invoke` round-trip for one item: `Except.ok content` is the
model's response text, `Except.error msg` a raised provider error.  In the
Python `except` branch the handler evaluates `query_item["query_id"]` on a
pydantic model instance, which itself raises `TypeError`; that exception is
not caught, so it aborts the whole loop (no entry is appended for the
failing item and the remaining items are never attempted). -/
def updateLoop (oracle : TimeBasedQueryItem → Except Str Str) :
    List TimeBasedQueryItem → Except Str (List DateUpdateResult)
  | [] => Except.ok []
  | item :: rest =>
    match oracle item with
    | Except.ok content =>
      (updateLoop oracle rest).map (fun tl => successEntry item content :: tl)
    | Except.error _ => Except.error pydantic_subscript_error

/-- Embedding of `update_time_based_queries` (`app/services/time_based.py`):
the returned `{"updated_queries": [...]}` envelope is modelled as the list
itself; a propagated exception is `Except.error`. -/
def update_time_based_queries (oracle : TimeBasedQueryItem → Except Str Str)
    (req : TimeBasedQueriesUpdateRequest) : Except Str (List DateUpdateResult) :=
  updateLoop oracle req.queries

/-- Embedding of `update_query_date_range` (`app/services/time_based.py`).
The source is a plain `def` that calls the `async def`
`update_time_based_queries` without `await`, so `response` is a coroutine
object and `response["updated_queries"]` raises `TypeError` before any
model call happens; the enclosing `except` turns this into the failure
dict, which is therefore the only reachable outcome.  The oracle parameter
is kept for signature parallelism but is never invoked. -/
def update_query_date_range (_oracle : TimeBasedQueryItem → Except Str Str)
    (query_id query _explanation _min_date _max_date _db_type : Str) :
    DateUpdateResult :=
  { query_id := query_id, original_query := query,
    original_explanation := none, updated_query := query,
    updated_explanation := none, success := false,
    error := some coroutine_subscript_error }

/-! ## NL-to-SQL endpoint chart-type aliasing (`app/api/nl_to_sql.py`) -/

/-- Python `str.lower()` (ASCII case folding, which covers the claim). -/
def py_lower (s : Str) : Str := s.map Char.toLower

/-- Embedding of the chart-type aliasing step of `convert_nlq_to_sql`:
`if result.chart_type.lower() == "scatterplot": result.chart_type = "scatter"`. -/
def normalize_chart_type (chart : Str) : Str :=
  if py_lower chart = "scatterplot".toList then "scatter".toList else chart

/-! ## Lemmas about `splitFirst`, `containsSub` and `pyStrip` -/

theorem containsSub_eq_true_iff {pat s : Str} :
    containsSub pat s = true ↔ pat <:+: s := by
  induction s with
  | nil =>
    simp [containsSub, List.isEmpty_iff]
  | cons c rest ih =>
    simp [containsSub, List.infix_cons_iff, ih, List.isPrefixOf_iff_prefix]

theorem containsSub_cons_of_tail {pat : Str} {c : Char} {rest : Str}
    (h : containsSub pat rest = true) : containsSub pat (c :: rest) = true := by
  simp [containsSub, h]

theorem containsSub_tail_of_cons_false {pat : Str} {c : Char} {rest : Str}
    (h : containsSub pat (c :: rest) = false) : containsSub pat rest = false := by
  revert h
  simp [containsSub]

theorem containsSub_mono_infix {pat u v : Str} (huv : u <:+: v)
    (h : containsSub pat v = false) : containsSub pat u = false := by
  by_contra hne
  have hu : containsSub pat u = true := by
    cases hcu : containsSub pat u with
    | false => exact absurd hcu hne
    | true => rfl
  have hv : containsSub pat v = true :=
    containsSub_eq_true_iff.mpr ((containsSub_eq_true_iff.mp hu).trans huv)
  rw [hv] at h
  simp at h

theorem splitFirst_append_eq {pat s pre post : Str}
    (h : splitFirst pat s = some (pre, post)) : s = pre ++ pat ++ post := by
  induction s generalizing pre post with
  | nil =>
    cases hp : pat.isPrefixOf ([] : Str) with
    | true =>
      have hpat : pat = [] := by
        have := List.isPrefixOf_iff_prefix.mp hp
        simpa using this
      subst hpat
      simp [splitFirst] at h
      obtain ⟨h1, h2⟩ := h
      subst h1
      subst h2
      rfl
    | false => simp [splitFirst, hp] at h
  | cons c rest ih =>
    cases hp : pat.isPrefixOf (c :: rest) with
    | true =>
      simp [splitFirst, hp] at h
      obtain ⟨h1, h2⟩ := h
      obtain ⟨t, ht⟩ := List.isPrefixOf_iff_prefix.mp hp
      have hdrop : (c :: rest).drop pat.length = t := by
        rw [← ht]
        exact List.drop_left pat t
      subst h1
      subst h2
      rw [hdrop, List.nil_append, ht]
    | false =>
      rw [splitFirst, if_neg (by simp [hp])] at h
      cases hsp : splitFirst pat rest with
      | none => rw [hsp] at h; simp at h
      | some pr =>
        obtain ⟨pre', post'⟩ := pr
        rw [hsp] at h
        simp at h
        obtain ⟨h1, h2⟩ := h
        subst h1
        subst h2
        have := ih hsp
        simp [this]

theorem splitFirst_min {pat s pre post : Str}
    (h : splitFirst pat s = some (pre, post)) :
    ∀ i, i < pre.length → pat.isPrefixOf (s.drop i) = false := by
  induction s generalizing pre post with
  | nil =>
    cases hp : pat.isPrefixOf ([] : Str) with
    | true =>
      simp [splitFirst, hp] at h
      obtain ⟨h1, _⟩ := h
      subst h1
      intro i hi
      simp at hi
    | false => simp [splitFirst, hp] at h
  | cons c rest ih =>
    cases hp : pat.isPrefixOf (c :: rest) with
    | true =>
      simp [splitFirst, hp] at h
      obtain ⟨h1, _⟩ := h
      subst h1
      intro i hi
      simp at hi
    | false =>
      rw [splitFirst, if_neg (by simp [hp])] at h
      cases hsp : splitFirst pat rest with
      | none => rw [hsp] at h; simp at h
      | some pr =>
        obtain ⟨pre', post'⟩ := pr
        rw [hsp] at h
        simp at h
        obtain ⟨h1, _⟩ := h
        subst h1
        intro i hi
        match i with
        | 0 => simpa using hp
        | j + 1 =>
          have hj : j < pre'.length := by simpa using hi
          simpa using ih hsp j hj

theorem splitFirst_none_iff {pat s : Str} :
    splitFirst pat s = none ↔ containsSub pat s = false := by
  induction s with
  | nil =>
    cases hp : pat.isPrefixOf ([] : Str) with
    | true =>
      have hpat : pat = [] := by
        have := List.isPrefixOf_iff_prefix.mp hp
        simpa using this
      subst hpat
      simp [splitFirst, containsSub]
    | false =>
      have hpat : pat ≠ [] := by
        intro hcon
        subst hcon
        simp [List.isPrefixOf] at hp
      simp [splitFirst, containsSub, hp, List.isEmpty_iff, hpat]
  | cons c rest ih =>
    cases hp : pat.isPrefixOf (c :: rest) with
    | true => simp [splitFirst, containsSub, hp]
    | false =>
      rw [splitFirst, if_neg (by simp [hp])]
      rw [containsSub, hp, Bool.false_or]
      cases hsp : splitFirst pat rest with
      | none => simpa [hsp] using ih.mp hsp
      | some pr =>
        obtain ⟨pre', post'⟩ := pr
        constructor
        · intro hcontra; exact absurd hcontra (by simp)
        · intro hfalse
          have hnone : splitFirst pat rest = none := ih.mpr hfalse
          rw [hsp] at hnone
          exact absurd hnone (by simp)

theorem splitFirst_pre_not_contains {pat s pre post : Str} (hne : pat ≠ [])
    (h : splitFirst pat s = some (pre, post)) : containsSub pat pre = false := by
  by_contra hcon
  have hc : containsSub pat pre = true := by
    cases hx : containsSub pat pre with
    | false => exact absurd hx hcon
    | true => rfl
  obtain ⟨a, b, hab⟩ := containsSub_eq_true_iff.mp hc
  have hs : s = pre ++ pat ++ post := splitFirst_append_eq h
  have hlen : a.length < pre.length := by
    have hL := congrArg List.length hab
    simp [List.length_append] at hL
    have hpl : 0 < pat.length := List.length_pos.mpr hne
    omega
  have hdrop : s.drop a.length = pat ++ (b ++ pat ++ post) := by
    rw [hs, ← hab]
    have hassoc : a ++ pat ++ b ++ pat ++ post = a ++ (pat ++ (b ++ pat ++ post)) := by
      simp
    rw [hassoc]
    exact List.drop_left a _
  have hpref : pat.isPrefixOf (s.drop a.length) = true := by
    rw [hdrop]
    exact List.isPrefixOf_iff_prefix.mpr ⟨b ++ pat ++ post, rfl⟩
  have hmin := splitFirst_min h a.length hlen
  rw [hmin] at hpref
  simp at hpref

theorem splitFirst_of_isPrefixOf {pat s : Str} (hne : pat ≠ [])
    (hp : pat.isPrefixOf s = true) :
    splitFirst pat s = some ([], s.drop pat.length) := by
  cases s with
  | nil =>
    exfalso
    have := List.isPrefixOf_iff_prefix.mp hp
    exact hne (by simpa using this)
  | cons c rest => simp [splitFirst, hp]

theorem rstrip_nil : rstrip ([] : Str) = [] := rfl

theorem lstrip_cons (c : Char) (t : Str) :
    lstrip (c :: t) = if pyIsSpace c then lstrip t else c :: t := by
  simp only [lstrip, List.dropWhile]
  cases pyIsSpace c <;> simp

theorem rstrip_cons (c : Char) (t : Str) :
    rstrip (c :: t) =
      match rstrip t with
      | [] => if pyIsSpace c then [] else [c]
      | d :: r => c :: d :: r := rfl

theorem rstrip_cons_of_nil {c : Char} {t : Str} (h : rstrip t = []) :
    rstrip (c :: t) = if pyIsSpace c then [] else [c] := by
  rw [rstrip_cons, h]

theorem rstrip_cons_of_cons {c d : Char} {t r : Str} (h : rstrip t = d :: r) :
    rstrip (c :: t) = c :: d :: r := by
  rw [rstrip_cons, h]

theorem lstrip_idem (s : Str) : lstrip (lstrip s) = lstrip s := by
  induction s with
  | nil => rfl
  | cons c t ih =>
    cases hc : pyIsSpace c with
    | true => rw [lstrip_cons, if_pos hc, ih]
    | false => rw [lstrip_cons, if_neg (by simp [hc]), lstrip_cons, if_neg (by simp [hc])]

theorem rstrip_idem (s : Str) : rstrip (rstrip s) = rstrip s := by
  induction s with
  | nil => rfl
  | cons c t ih =>
    cases hr : rstrip t with
    | nil =>
      rw [rstrip_cons_of_nil hr]
      cases hc : pyIsSpace c with
      | true => simp [rstrip_nil]
      | false => simp [rstrip_cons_of_nil rstrip_nil, hc]
    | cons d r =>
      rw [hr] at ih
      rw [rstrip_cons_of_cons hr, rstrip_cons_of_cons ih]

theorem lstrip_rstrip_comm (s : Str) : lstrip (rstrip s) = rstrip (lstrip s) := by
  induction s with
  | nil => rfl
  | cons c t ih =>
    cases hc : pyIsSpace c with
    | true =>
      have hlhs : lstrip (c :: t) = lstrip t := by rw [lstrip_cons, if_pos hc]
      cases hr : rstrip t with
      | nil =>
        rw [hr] at ih
        rw [rstrip_cons_of_nil hr, if_pos hc, hlhs, ← ih]
      | cons d r =>
        rw [hr] at ih
        rw [rstrip_cons_of_cons hr, hlhs, ← ih, lstrip_cons, if_pos hc]
    | false =>
      have hlhs : lstrip (c :: t) = c :: t := by rw [lstrip_cons, if_neg (by simp [hc])]
      cases hr : rstrip t with
      | nil => simp [rstrip_cons_of_nil hr, hc, hlhs, lstrip_cons]
      | cons d r => simp [rstrip_cons_of_cons hr, hc, hlhs, lstrip_cons]

theorem pyStrip_idem (s : Str) : pyStrip (pyStrip s) = pyStrip s := by
  unfold pyStrip
  rw [lstrip_rstrip_comm (lstrip s), rstrip_idem, lstrip_idem]

theorem rstrip_prefixOf (s : Str) : rstrip s <+: s := by
  induction s with
  | nil => exact List.prefix_refl []
  | cons c t ih =>
    cases hr : rstrip t with
    | nil =>
      rw [rstrip_cons_of_nil hr]
      cases hc : pyIsSpace c with
      | true => simp
      | false => rw [if_neg (by simp [hc])]; simp
    | cons d r =>
      rw [hr] at ih
      rw [rstrip_cons_of_cons hr]
      exact List.cons_prefix_cons.mpr ⟨rfl, ih⟩

theorem pyStrip_infixOf (s : Str) : pyStrip s <:+: s := by
  have h1 : rstrip (lstrip s) <+: lstrip s := rstrip_prefixOf (lstrip s)
  have h2 : lstrip s <:+ s := List.dropWhile_suffix pyIsSpace
  exact h1.isInfix.trans h2.isInfix

theorem rstrip_append_ws {c : Char} (hc : pyIsSpace c = true) (s : Str) :
    rstrip (s ++ [c]) = rstrip s := by
  induction s with
  | nil =>
    rw [List.nil_append, rstrip_cons_of_nil rstrip_nil, if_pos hc, rstrip_nil]
  | cons d t ih =>
    rw [List.cons_append, rstrip_cons, ih, ← rstrip_cons]

theorem pyStrip_wrap (X : Str) :
    pyStrip ('\n' :: (X ++ ['\n'])) = pyStrip X := by
  have hnl : pyIsSpace '\n' = true := by decide
  unfold pyStrip
  rw [lstrip_cons, if_pos hnl, ← lstrip_rstrip_comm, rstrip_append_ws hnl,
    lstrip_rstrip_comm]

/-! ## Fence-structure lemmas -/

theorem fence_ne_nil : fence ≠ [] := by decide

theorem sqlTag_ne_nil : sqlTag ≠ [] := by decide

theorem fence_prefix_sqlTag : fence <+: sqlTag := ⟨"sql".toList, by decide⟩

/-- a fence cannot start strictly inside `c :: X'` when the next character
after `X'` is a newline: any claimed prefix either lies inside `c :: X'`
or is broken by the newline. -/
theorem fence_no_straddle {c : Char} {X' tail : Str}
    (h : fence.isPrefixOf (c :: (X' ++ '\n' :: tail)) = true) :
    containsSub fence (c :: X') = true := by
  match X' with
  | [] =>
    exfalso
    simp [fence, List.isPrefixOf] at h
  | [d] =>
    exfalso
    simp [fence, List.isPrefixOf] at h
  | d :: e :: X'' =>
    simp [fence, List.isPrefixOf] at h
    obtain ⟨h1, h2, h3⟩ := h
    subst h1
    subst h2
    subst h3
    simp [containsSub, fence, List.isPrefixOf]

theorem splitFirst_fence_wrap {X : Str} (hX : containsSub fence X = false) :
    splitFirst fence (X ++ '\n' :: fence) = some (X ++ ['\n'], []) := by
  induction X with
  | nil => decide
  | cons c X' ih =>
    have hX' : containsSub fence X' = false := containsSub_tail_of_cons_false hX
    cases hpre : fence.isPrefixOf (c :: (X' ++ '\n' :: fence)) with
    | true =>
      exfalso
      have := fence_no_straddle hpre
      rw [this] at hX
      simp at hX
    | false =>
      rw [List.cons_append, splitFirst, if_neg (by simp [hpre]), ih hX']
      rfl

theorem containsSub_sqlTag_wrap {X : Str} (hX : containsSub fence X = false) :
    containsSub sqlTag (X ++ '\n' :: fence) = false := by
  induction X with
  | nil => decide
  | cons c X' ih =>
    have hX' : containsSub fence X' = false := containsSub_tail_of_cons_false hX
    rw [List.cons_append, containsSub]
    cases hpre : sqlTag.isPrefixOf (c :: (X' ++ '\n' :: fence)) with
    | true =>
      exfalso
      have hfp : fence.isPrefixOf (c :: (X' ++ '\n' :: fence)) = true := by
        apply List.isPrefixOf_iff_prefix.mpr
        exact fence_prefix_sqlTag.trans (List.isPrefixOf_iff_prefix.mp hpre)
      have := fence_no_straddle hfp
      rw [this] at hX
      simp at hX
    | false =>
      rw [ih hX']
      rfl

/-! ## `searchBlock` structure lemmas -/

theorem searchBlock_eq_none_left {tag s : Str} (h : splitFirst tag s = none) :
    searchBlock tag s = none := by
  unfold searchBlock; rw [h]

theorem searchBlock_eq_none_right {tag s pre post : Str}
    (h1 : splitFirst tag s = some (pre, post))
    (h2 : splitFirst fence post = none) : searchBlock tag s = none := by
  unfold searchBlock
  rw [h1]
  dsimp only
  rw [h2]

theorem searchBlock_eq_some {tag s pre post inner rest : Str}
    (h1 : splitFirst tag s = some (pre, post))
    (h2 : splitFirst fence post = some (inner, rest)) :
    searchBlock tag s = some (pyStrip inner) := by
  unfold searchBlock
  rw [h1]
  dsimp only
  rw [h2]

theorem searchBlock_inner_no_fence {tag s r : Str}
    (h : searchBlock tag s = some r) : containsSub fence r = false := by
  cases h1 : splitFirst tag s with
  | none => rw [searchBlock_eq_none_left h1] at h; simp at h
  | some pr =>
    obtain ⟨pre, post⟩ := pr
    cases h2 : splitFirst fence post with
    | none => rw [searchBlock_eq_none_right h1 h2] at h; simp at h
    | some pr2 =>
      obtain ⟨inner, rest⟩ := pr2
      rw [searchBlock_eq_some h1 h2] at h
      simp at h
      have hin : containsSub fence inner = false :=
        splitFirst_pre_not_contains fence_ne_nil h2
      rw [← h]
      exact containsSub_mono_infix (pyStrip_infixOf inner) hin

theorem searchBlock_some_iff {tag s : Str} :
    (∃ r, searchBlock tag s = some r) ↔ ∃ a b c', s = a ++ tag ++ b ++ fence ++ c' := by
  constructor
  · rintro ⟨r, h⟩
    cases h1 : splitFirst tag s with
    | none => rw [searchBlock_eq_none_left h1] at h; simp at h
    | some pr =>
      obtain ⟨pre, post⟩ := pr
      cases h2 : splitFirst fence post with
      | none => rw [searchBlock_eq_none_right h1 h2] at h; simp at h
      | some pr2 =>
        obtain ⟨inner, rest⟩ := pr2
        have hs : s = pre ++ tag ++ post := splitFirst_append_eq h1
        have hpost : post = inner ++ fence ++ rest := splitFirst_append_eq h2
        exact ⟨pre, inner, rest, by rw [hs, hpost]; simp⟩
  · rintro ⟨a, b, c', hdec⟩
    have htag : containsSub tag s = true := by
      apply containsSub_eq_true_iff.mpr
      exact ⟨a, b ++ fence ++ c', by rw [hdec]; simp⟩
    have h1 : splitFirst tag s ≠ none := by
      intro hcon
      rw [splitFirst_none_iff.mp hcon] at htag
      simp at htag
    cases hsp : splitFirst tag s with
    | none => exact absurd hsp h1
    | some pr =>
      obtain ⟨pre, post⟩ := pr
      have hs : s = pre ++ tag ++ post := splitFirst_append_eq hsp
      have hle : pre.length ≤ a.length := by
        by_contra hgt
        push_neg at hgt
        have hpref : tag.isPrefixOf (s.drop a.length) = true := by
          have : s.drop a.length = tag ++ (b ++ fence ++ c') := by
            rw [hdec]
            have hassoc : a ++ tag ++ b ++ fence ++ c'
                = a ++ (tag ++ (b ++ fence ++ c')) := by simp
            rw [hassoc]
            exact List.drop_left a _
          rw [this]
          exact List.isPrefixOf_iff_prefix.mpr ⟨b ++ fence ++ c', rfl⟩
        have := splitFirst_min hsp a.length hgt
        rw [this] at hpref
        simp at hpref
      have hfence : containsSub fence post = true := by
        apply containsSub_eq_true_iff.mpr
        have hdrop : post = s.drop (pre.length + tag.length) := by
          rw [hs]
          have : (pre ++ tag ++ post) = (pre ++ tag) ++ post := by simp
          rw [this]
          have hlen : pre.length + tag.length = (pre ++ tag).length := by
            simp
          rw [hlen]
          exact (List.drop_left (pre ++ tag) post).symm
        have hdrop2 : s.drop (pre.length + tag.length)
            = ((a ++ tag).drop (pre.length + tag.length)) ++ (b ++ fence ++ c') := by
          rw [hdec]
          have hassoc : a ++ tag ++ b ++ fence ++ c'
              = (a ++ tag) ++ (b ++ fence ++ c') := by simp
          rw [hassoc]
          rw [List.drop_append_eq_append_drop]
          have hn : pre.length + tag.length - (a ++ tag).length = 0 := by
            simp
            omega
          rw [hn, List.drop_zero]
        rw [hdrop, hdrop2]
        exact ⟨(a ++ tag).drop (pre.length + tag.length) ++ b, c', by simp⟩
      have h2 : splitFirst fence post ≠ none := by
        intro hcon
        rw [splitFirst_none_iff.mp hcon] at hfence
        simp at hfence
      cases hsp2 : splitFirst fence post with
      | none => exact absurd hsp2 h2
      | some pr2 =>
        obtain ⟨inner, rest⟩ := pr2
        exact ⟨pyStrip inner, searchBlock_eq_some hsp hsp2⟩

theorem searchBlock_none_mono {tag u v : Str} (huv : u <:+: v)
    (h : searchBlock tag v = none) : searchBlock tag u = none := by
  cases hu : searchBlock tag u with
  | none => rfl
  | some r =>
    exfalso
    obtain ⟨a, b, c', hdec⟩ := searchBlock_some_iff.mp ⟨r, hu⟩
    obtain ⟨x, y, hxy⟩ := huv
    have : ∃ r', searchBlock tag v = some r' := by
      apply searchBlock_some_iff.mpr
      exact ⟨x ++ a, b, c' ++ y, by rw [← hxy, hdec]; simp⟩
    obtain ⟨r', hr'⟩ := this
    rw [hr'] at h
    simp at h

/-! ## `extract_sql_from_response` helper lemmas -/

theorem extract_eq_of_sql_some {s r : Str} (h : searchBlock sqlTag s = some r) :
    extract_sql_from_response s = r := by
  unfold extract_sql_from_response
  rw [h]

theorem extract_eq_of_fence_some {s r : Str} (h1 : searchBlock sqlTag s = none)
    (h2 : searchBlock fence s = some r) : extract_sql_from_response s = r := by
  unfold extract_sql_from_response
  rw [h1]
  dsimp only
  rw [h2]

theorem extract_eq_of_none {s : Str} (h1 : searchBlock sqlTag s = none)
    (h2 : searchBlock fence s = none) :
    extract_sql_from_response s = pyStrip s := by
  unfold extract_sql_from_response
  rw [h1]
  dsimp only
  rw [h2]

theorem containsSub_cons_false {pat : Str} {c : Char} {rest : Str}
    (h : pat.isPrefixOf (c :: rest) = false) :
    containsSub pat (c :: rest) = containsSub pat rest := by
  rw [containsSub, h, Bool.false_or]

theorem containsSub_sqlTag_of_no_fence {s : Str}
    (h : containsSub fence s = false) : containsSub sqlTag s = false := by
  cases hx : containsSub sqlTag s with
  | false => rfl
  | true =>
    exfalso
    have hinf : sqlTag <:+: s := containsSub_eq_true_iff.mp hx
    have : fence <:+: s := (fence_prefix_sqlTag.isInfix).trans hinf
    rw [containsSub_eq_true_iff.mpr this] at h
    simp at h

theorem extract_no_fence {s : Str} (h : containsSub fence s = false) :
    extract_sql_from_response s = pyStrip s := by
  have hsql : containsSub sqlTag s = false := containsSub_sqlTag_of_no_fence h
  exact extract_eq_of_none
    (searchBlock_eq_none_left (splitFirst_none_iff.mpr hsql))
    (searchBlock_eq_none_left (splitFirst_none_iff.mpr h))

theorem splitFirst_fence_after_newline {X : Str}
    (hX : containsSub fence X = false) :
    splitFirst fence ('\n' :: (X ++ '\n' :: fence))
      = some ('\n' :: (X ++ ['\n']), []) := by
  rw [splitFirst, if_neg (by simp [fence, List.isPrefixOf])]
  rw [splitFirst_fence_wrap hX]

theorem searchBlock_sql_concrete {X : Str} (hX : containsSub fence X = false) :
    searchBlock sqlTag (sqlTag ++ '\n' :: (X ++ '\n' :: fence))
      = some (pyStrip X) := by
  have h1 : splitFirst sqlTag (sqlTag ++ '\n' :: (X ++ '\n' :: fence))
      = some ([], '\n' :: (X ++ '\n' :: fence)) := by
    rw [splitFirst_of_isPrefixOf sqlTag_ne_nil
      (List.isPrefixOf_iff_prefix.mpr ⟨'\n' :: (X ++ '\n' :: fence), rfl⟩)]
    rw [List.drop_left sqlTag _]
  rw [searchBlock_eq_some h1 (splitFirst_fence_after_newline hX), pyStrip_wrap]

theorem searchBlock_fence_concrete {X : Str} (hX : containsSub fence X = false) :
    searchBlock fence (fence ++ '\n' :: (X ++ '\n' :: fence))
      = some (pyStrip X) := by
  have h1 : splitFirst fence (fence ++ '\n' :: (X ++ '\n' :: fence))
      = some ([], '\n' :: (X ++ '\n' :: fence)) := by
    rw [splitFirst_of_isPrefixOf fence_ne_nil
      (List.isPrefixOf_iff_prefix.mpr ⟨'\n' :: (X ++ '\n' :: fence), rfl⟩)]
    rw [List.drop_left fence _]
  rw [searchBlock_eq_some h1 (splitFirst_fence_after_newline hX), pyStrip_wrap]

theorem searchBlock_sql_none_on_untagged {X : Str}
    (hX : containsSub fence X = false) :
    searchBlock sqlTag (fence ++ '\n' :: (X ++ '\n' :: fence)) = none := by
  apply searchBlock_eq_none_left
  apply splitFirst_none_iff.mpr
  show containsSub sqlTag ('`' :: '`' :: '`' :: '\n' :: (X ++ '\n' :: fence)) = false
  rw [containsSub_cons_false (by simp [sqlTag, List.isPrefixOf])]
  rw [containsSub_cons_false (by simp [sqlTag, List.isPrefixOf])]
  rw [containsSub_cons_false (by simp [sqlTag, List.isPrefixOf])]
  rw [containsSub_cons_false (by simp [sqlTag, List.isPrefixOf])]
  exact containsSub_sqlTag_wrap hX

theorem searchBlock_strip_fixed {tag s r : Str}
    (h : searchBlock tag s = some r) : pyStrip r = r := by
  cases h1 : splitFirst tag s with
  | none => rw [searchBlock_eq_none_left h1] at h; simp at h
  | some pr =>
    obtain ⟨pre, post⟩ := pr
    cases h2 : splitFirst fence post with
    | none => rw [searchBlock_eq_none_right h1 h2] at h; simp at h
    | some pr2 =>
      obtain ⟨inner, rest⟩ := pr2
      rw [searchBlock_eq_some h1 h2] at h
      simp at h
      rw [← h]
      exact pyStrip_idem inner

/-! ## Claim theorems for the extractor -/

/-- C4: `extract_sql_from_response` satisfies the three-tier extraction
contract: an input whose ```sql search succeeds returns that block's
trimmed interior; an input whose ```sql search fails but whose untagged
fence search succeeds returns that block's trimmed interior; an input with
no fence at all returns the whole input trimmed (the function is total, so
no exception is possible).  In particular, for every `X` not containing a
closing fence, the input built as three-backticks+sql, newline, `X`,
newline, three-backticks returns `X` trimmed, and likewise for the
untagged fenced form. -/
theorem c4_extract_three_tier :
    (∀ s r : Str, searchBlock sqlTag s = some r → extract_sql_from_response s = r) ∧
    (∀ s r : Str, searchBlock sqlTag s = none → searchBlock fence s = some r →
      extract_sql_from_response s = r) ∧
    (∀ s : Str, containsSub fence s = false →
      extract_sql_from_response s = pyStrip s) ∧
    (∀ X : Str, containsSub fence X = false →
      extract_sql_from_response (sqlTag ++ '\n' :: (X ++ '\n' :: fence))
        = pyStrip X) ∧
    (∀ X : Str, containsSub fence X = false →
      extract_sql_from_response (fence ++ '\n' :: (X ++ '\n' :: fence))
        = pyStrip X) := by
  refine ⟨?_, ?_, ?_, ?_, ?_⟩
  · exact fun s r h => extract_eq_of_sql_some h
  · exact fun s r h1 h2 => extract_eq_of_fence_some h1 h2
  · exact fun s h => extract_no_fence h
  · exact fun X hX => extract_eq_of_sql_some (searchBlock_sql_concrete hX)
  · exact fun X hX =>
      extract_eq_of_fence_some (searchBlock_sql_none_on_untagged hX)
        (searchBlock_fence_concrete hX)

/-- Witness for C4: a concrete fenced-SQL input is unwrapped to its trimmed
interior. -/
theorem c4_extract_witness :
    containsSub fence "SELECT 1 FROM t".toList = false ∧
    extract_sql_from_response
        (sqlTag ++ '\n' :: ("SELECT 1 FROM t".toList ++ '\n' :: fence))
      = pyStrip "SELECT 1 FROM t".toList :=
  ⟨by decide, c4_extract_three_tier.2.2.2.1 "SELECT 1 FROM t".toList (by decide)⟩

/-- C5: `extract_sql_from_response` is idempotent on every input string:
re-running the extractor on its own output returns the same string. -/
theorem c5_extract_idempotent (s : Str) :
    extract_sql_from_response (extract_sql_from_response s)
      = extract_sql_from_response s := by
  cases h1 : searchBlock sqlTag s with
  | some r =>
    rw [extract_eq_of_sql_some h1,
      extract_no_fence (searchBlock_inner_no_fence h1),
      searchBlock_strip_fixed h1]
  | none =>
    cases h2 : searchBlock fence s with
    | some r =>
      rw [extract_eq_of_fence_some h1 h2,
        extract_no_fence (searchBlock_inner_no_fence h2),
        searchBlock_strip_fixed h2]
    | none =>
      rw [extract_eq_of_none h1 h2]
      have hs1 : searchBlock sqlTag (pyStrip s) = none :=
        searchBlock_none_mono (pyStrip_infixOf s) h1
      have hs2 : searchBlock fence (pyStrip s) = none :=
        searchBlock_none_mono (pyStrip_infixOf s) h2
      rw [extract_eq_of_none hs1 hs2, pyStrip_idem]

/-! ## Claim theorems for the classifier and refiner -/

/-- The first reference input of the spec, with single quotes around the
date literals. -/
def ref_query_time_based : Str :=
  "SELECT * FROM t WHERE d BETWEEN ".toList ++ [sq] ++ "2024-01-01".toList
    ++ [sq] ++ " AND ".toList ++ [sq] ++ "2024-12-31".toList ++ [sq]

/-- The second reference input of the spec. -/
def ref_query_plain : Str := "SELECT name FROM customers".toList

/-- C6: the time-based classifier returns true on the BETWEEN-AND reference
input and false on the plain reference input; it is a total boolean
function, so it cannot raise. -/
theorem c6_classifier_reference_inputs :
    is_time_based_query ref_query_time_based = true ∧
    is_time_based_query ref_query_plain = false := by
  constructor <;> decide

/-- A time-based query (it contains BETWEEN ... AND) whose SQL string
literal uses doubled-single-quote escaping but contains no date
placeholder. -/
def demo_quoted_query : Str :=
  "SELECT id FROM t WHERE d BETWEEN a AND b AND note = ".toList
    ++ [sq] ++ "It".toList ++ [sq, sq] ++ "s ok".toList ++ [sq]

/-- demo_quoted_query after refinement: the doubled quote is collapsed. -/
def demo_quoted_result : Str :=
  "SELECT id FROM t WHERE d BETWEEN a AND b AND note = ".toList
    ++ [sq] ++ "It".toList ++ [sq] ++ "s ok".toList ++ [sq]

/-- C10: the local placeholder refiner returns the query unchanged when it
is not classified time-based or when either bound is empty; otherwise it
substitutes every `[MIN_DATE]` and `[MAX_DATE]` occurrence and additionally
collapses every doubled single quote into one. -/
theorem c10_refine_time_based_query (q mn mx : Str) :
    (is_time_based_query q = false → refine_time_based_query q mn mx = q) ∧
    ((mn = [] ∨ mx = []) → refine_time_based_query q mn mx = q) ∧
    (is_time_based_query q = true → mn ≠ [] → mx ≠ [] →
      refine_time_based_query q mn mx
        = pyReplace (pyReplace (pyReplace q minTok mn) maxTok mx)
            [sq, sq] [sq]) := by
  refine ⟨?_, ?_, ?_⟩
  · intro h
    simp [refine_time_based_query, h]
  · intro h
    unfold refine_time_based_query
    by_cases ht : is_time_based_query q = false
    · simp [ht]
    · simp [ht, h]
  · intro ht hmn hmx
    simp [refine_time_based_query, ht, hmn, hmx]

/-- Witness for C10: a time-based query with doubled-quote escaping and no
placeholder is silently altered by the refiner. -/
theorem c10_refine_witness :
    refine_time_based_query demo_quoted_query "2024-01-01".toList
        "2024-12-31".toList = demo_quoted_result ∧
    demo_quoted_result ≠ demo_quoted_query := by
  have h := (c10_refine_time_based_query demo_quoted_query
    "2024-01-01".toList "2024-12-31".toList).2.2 (by decide) (by decide)
    (by decide)
  exact ⟨by rw [h]; decide, by decide⟩

/-! ## Claim theorems for draft generation and validation -/

/-- C3: whenever any step of draft generation raises, `generate_queries`
catches the exception and returns the well-formed single-item degraded
batch: query text is the error marker prefix followed by the message,
relevance 0.0, not time-based, and a chart type from the recognized set
(and the sentinel item itself passes `SQLQueryItem` validation). -/
theorem c3_generation_error_sentinel (e : Str) (min_max_dates : List Str) :
    generate_queries (Except.error e) min_max_dates = [error_item e] ∧
    (error_item e).query = "-- Error: ".toList ++ e ∧
    (error_item e).relevance = 0 ∧
    (error_item e).is_time_based = false ∧
    (error_item e).chart_type ∈ valid_chart_types ∧
    SQLQueryItem.validate (error_item e).question (error_item e).query 0 false
      "Line".toList = Except.ok (error_item e) := by
  refine ⟨rfl, rfl, rfl, rfl, by show "Line".toList ∈ valid_chart_types; decide, ?_⟩
  unfold SQLQueryItem.validate
  rw [if_neg (by norm_num), if_neg (by decide)]
  have h0 : pyRound2 0 = 0 := by norm_num [pyRound2, roundHalfEven]
  simp [error_item, h0]

/-- C7: constructing an `SQLQueryItem` with relevance outside `[0, 1]`
fails validation (it is rejected, not clamped), and every relevance inside
`[0, 1]` passes validation with the stored value rounded to two decimals;
in particular relevance 1.5 is rejected. -/
theorem c7_relevance_validation :
    (∀ question query : Str, ∀ itb : Bool, ∀ chart : Str, ∀ v : ℚ,
      (¬ (0 ≤ v ∧ v ≤ 1) →
        SQLQueryItem.validate question query v itb chart
          = Except.error relevance_error_msg) ∧
      (0 ≤ v → v ≤ 1 → chart ∈ valid_chart_types →
        SQLQueryItem.validate question query v itb chart
          = Except.ok
              { question := question, query := query,
                relevance := pyRound2 v, is_time_based := itb,
                chart_type := chart })) ∧
    SQLQueryItem.validate "q".toList "SELECT 1".toList (3 / 2) false
      "Line".toList = Except.error relevance_error_msg := by
  constructor
  · intro question query itb chart v
    constructor
    · intro h
      unfold SQLQueryItem.validate
      rw [if_pos h]
    · intro h1 h2 h3
      unfold SQLQueryItem.validate
      rw [if_neg (by tauto), if_neg (by simp [h3])]
  · unfold SQLQueryItem.validate
    rw [if_pos (by norm_num)]

/-- Witness for C7: relevance 1/4 is accepted and stored rounded. -/
theorem c7_relevance_witness :
    (0 : ℚ) ≤ 1 / 4 ∧ (1 / 4 : ℚ) ≤ 1 ∧
    SQLQueryItem.validate "q".toList "q".toList (1 / 4) true "Bar".toList
      = Except.ok
          { question := "q".toList, query := "q".toList,
            relevance := pyRound2 (1 / 4), is_time_based := true,
            chart_type := "Bar".toList } :=
  ⟨by norm_num, by norm_num,
    (c7_relevance_validation.1 "q".toList "q".toList true "Bar".toList
      (1 / 4)).2 (by norm_num) (by norm_num) (by decide)⟩

/-! ## Claim theorems for the NL-to-SQL chart alias -/

/-- Counterexample for C8: the endpoint normalizes `"Scatterplot"` to the
lowercase `"scatter"`, not to `"Scatter"` as the claim states. -/
theorem c8_scatter_counterexample :
    normalize_chart_type "Scatterplot".toList = "scatter".toList ∧
    normalize_chart_type "Scatterplot".toList ≠ "Scatter".toList := by
  constructor <;> decide

/-- C8 (amended): a chart type whose lowercase form is `"scatterplot"` is
normalized to `"scatter"` in the final response; any other chart type is
passed through unchanged. -/
theorem c8_scatter_amended (chart : Str) :
    (py_lower chart = "scatterplot".toList →
      normalize_chart_type chart = "scatter".toList) ∧
    (py_lower chart ≠ "scatterplot".toList →
      normalize_chart_type chart = chart) := by
  constructor
  · intro h
    unfold normalize_chart_type
    rw [if_pos h]
  · intro h
    unfold normalize_chart_type
    rw [if_neg h]

/-- Witness for C8: an all-caps spelling is also normalized. -/
theorem c8_scatter_witness :
    py_lower "SCATTERPLOT".toList = "scatterplot".toList ∧
    normalize_chart_type "SCATTERPLOT".toList = "scatter".toList :=
  ⟨by decide, (c8_scatter_amended "SCATTERPLOT".toList).1 (by decide)⟩

/-! ## Claim theorems for the batch refiner -/

/-- A well-formed model response with one sql block and one text block. -/
def demo_model_content : Str :=
  sqlTag ++ '\n' :: ("SELECT 1 FROM t WHERE d BETWEEN x AND y".toList
    ++ '\n' :: fence)
    ++ '\n' :: (textTag ++ '\n' :: ("Updated explanation.".toList
    ++ '\n' :: fence))

/-- Three-item batch whose middle item triggers a provider error. -/
def c1_items : List TimeBasedQueryItem :=
  [ { query_id := "q1".toList, query := "SELECT a FROM t1".toList,
      explanation := "first".toList },
    { query_id := "q2".toList, query := "SELECT b FROM t2".toList,
      explanation := "second".toList },
    { query_id := "q3".toList, query := "SELECT c FROM t3".toList,
      explanation := "third".toList } ]

/-- The three-item refine request of the spec's failure-isolation example. -/
def c1_request : TimeBasedQueriesUpdateRequest :=
  { queries := c1_items, min_date := "2024-01-01".toList,
    max_date := "2024-12-31".toList, db_type := "postgres".toList }

/-- Oracle raising a provider error exactly on item 2. -/
def c1_oracle : TimeBasedQueryItem → Except Str Str := fun item =>
  if item.query_id = "q2".toList then Except.error "provider error".toList
  else Except.ok demo_model_content

/-- C1 (code-bug evidence): on the 3-item batch where only item 2's model
call raises, the batch refiner does not return three entries — the
`except` handler subscripts the pydantic item and the resulting `TypeError`
propagates, aborting the whole batch. -/
theorem c1_batch_abort_on_item_failure :
    update_time_based_queries c1_oracle c1_request
      = Except.error pydantic_subscript_error := rfl

/-- A single-item request for the single-query updater comparison. -/
def c2_item : TimeBasedQueryItem :=
  { query_id := "q9".toList, query := "SELECT x FROM s".toList,
    explanation := "expl".toList }

/-- Oracle that always succeeds with a well-formed response. -/
def c2_oracle : TimeBasedQueryItem → Except Str Str :=
  fun _ => Except.ok demo_model_content

/-- The one-element batch corresponding to the single-query call. -/
def c2_request : TimeBasedQueriesUpdateRequest :=
  { queries := [c2_item], min_date := "2024-01-01".toList,
    max_date := "2024-12-31".toList, db_type := "postgres".toList }

/-- C2 (code-bug evidence): with a model call that succeeds, the one-element
batch call returns a success entry, but the single-query updater — which
never awaits the coroutine — returns the failure dict with the coroutine
subscript `TypeError`, so the two disagree (`success` true vs false). -/
theorem c2_single_updater_coroutine_bug :
    update_time_based_queries c2_oracle c2_request
      = Except.ok [successEntry c2_item demo_model_content] ∧
    (successEntry c2_item demo_model_content).success = true ∧
    update_query_date_range c2_oracle c2_item.query_id c2_item.query
        c2_item.explanation "2024-01-01".toList "2024-12-31".toList
        "postgres".toList
      = { query_id := c2_item.query_id, original_query := c2_item.query,
          original_explanation := none, updated_query := c2_item.query,
          updated_explanation := none, success := false,
          error := some coroutine_subscript_error } ∧
    (update_query_date_range c2_oracle c2_item.query_id c2_item.query
        c2_item.explanation "2024-01-01".toList "2024-12-31".toList
        "postgres".toList).success = false :=
  ⟨rfl, rfl, rfl, rfl⟩

/-- C9: when every model call succeeds the batch result is the input-order
map of success entries, and a success entry built from a response with no
```sql block still has success true and error none, with the literal
sentinel `"No valid SQL found."` as updated query (and the sentinel
explanation when no ```text block is present either). -/
theorem c9_success_entry_semantics :
    (∀ (oracle : TimeBasedQueryItem → Except Str Str)
        (req : TimeBasedQueriesUpdateRequest) (f : TimeBasedQueryItem → Str),
      (∀ it, oracle it = Except.ok (f it)) →
      update_time_based_queries oracle req
        = Except.ok (req.queries.map (fun it => successEntry it (f it)))) ∧
    (∀ (item : TimeBasedQueryItem) (content : Str),
      searchBlock sqlTag content = none →
      (successEntry item content).success = true ∧
      (successEntry item content).error = none ∧
      (successEntry item content).updated_query
        = "No valid SQL found.".toList ∧
      (searchBlock textTag content = none →
        (successEntry item content).updated_explanation
          = some "No explanation provided.".toList)) := by
  constructor
  · intro oracle req f h
    unfold update_time_based_queries
    have hloop : ∀ l : List TimeBasedQueryItem,
        updateLoop oracle l
          = Except.ok (l.map (fun it => successEntry it (f it))) := by
      intro l
      induction l with
      | nil => rfl
      | cons it rest ih =>
        rw [updateLoop, h it]
        dsimp only
        rw [ih]
        rfl
    exact hloop req.queries
  · intro item content h
    refine ⟨rfl, rfl, ?_, ?_⟩
    · show (extract_sql_and_explanation content).1 = _
      unfold extract_sql_and_explanation
      rw [h]
      rfl
    · intro ht
      show some (extract_sql_and_explanation content).2 = _
      unfold extract_sql_and_explanation
      rw [ht]
      rfl

/-- A model response containing no fenced block at all. -/
def c9_plain_content : Str := "no fenced block here".toList

/-- The single item of the C9 witness request. -/
def c9_item : TimeBasedQueryItem :=
  { query_id := "q1".toList, query := "SELECT a FROM t".toList,
    explanation := "e".toList }

/-- The C9 witness request. -/
def c9_request : TimeBasedQueriesUpdateRequest :=
  { queries := [c9_item], min_date := "2024-01-01".toList,
    max_date := "2024-12-31".toList, db_type := "mysql".toList }

/-- Witness for C9: a concrete all-success batch whose response has no
fenced block yields the sentinel updated query with success true. -/
theorem c9_success_entry_witness :
    update_time_based_queries (fun _ => Except.ok c9_plain_content) c9_request
      = Except.ok (c9_request.queries.map
          (fun it => successEntry it c9_plain_content)) ∧
    searchBlock sqlTag c9_plain_content = none ∧
    (successEntry c9_item c9_plain_content).updated_query
      = "No valid SQL found.".toList :=
  ⟨c9_success_entry_semantics.1 _ c9_request (fun _ => c9_plain_content)
      (fun _ => rfl),
    by decide,
    (c9_success_entry_semantics.2 c9_item c9_plain_content (by decide)).2.2.1⟩

end VizAi

